import Mathlib

/-!
Verification of `spatial_audio_buds.py` (threeDsound): a shallow embedding of
the head-tracked spatial-audio pipeline and proofs of the specified
properties: the CRC engine, the 23-byte frame parser, the resynchronising
receive-buffer loop, the latest-wins orientation queue, the real-time audio
callback, and the stop flag.

Python integers are unbounded, so integer state is modelled as `Nat` with no
implicit masking; explicit masks (`&&& 0xFFFF`) appear exactly where the
source has them.  Audio samples and quaternion components are modelled as
real numbers; IEEE-754 binary32 quaternion fields decoded from the wire are
modelled by their little-endian 32-bit bit patterns (`struct.unpack` is a
fixed bijection between 4-byte strings and binary32 values, so equality of
decoded floats is equality of bit patterns).
-/

namespace SpatialAudioBuds

/-! CRC engine: `crc16`, `spatial_audio_buds.py` lines 46-59. -/

/-- One round of the inner loop of `crc16` (lines 55-58):
`crc = (crc << 1) ^ 0x1021` when bit 15 is set, else `crc = crc << 1`.
Python integers do not overflow, so no masking happens here. -/
def shiftRound (c : Nat) : Nat :=
  if c &&& 0x8000 ≠ 0 then (c <<< 1) ^^^ 0x1021 else c <<< 1

/-- Per-byte update of the CRC state (lines 53-58): `crc ^= byte << 8`
followed by eight shift rounds. -/
def crc16update (crc b : Nat) : Nat :=
  shiftRound^[8] (crc ^^^ (b <<< 8))

/-- Model of `crc16` (lines 46-59): fold the per-byte update over the data with
initial value 0x0000 and mask the result with `& 0xFFFF`. -/
def crc16 (data : List Nat) : Nat :=
  (data.foldl crc16update 0) &&& 0xFFFF

/-- Modelled from the spec: one round of CRC-16/CCITT-XMODEM on a genuine
16-bit register (polynomial 0x1021, MSB first, state always below 2^16). -/
def shiftRound16 (c : Nat) : Nat :=
  if c &&& 0x8000 ≠ 0 then ((c <<< 1) ^^^ 0x1021) % 65536 else (c <<< 1) % 65536

/-- Modelled from the spec: per-byte CRC-16/CCITT-XMODEM update on a 16-bit
register. -/
def crc16xmodemUpdate (crc b : Nat) : Nat :=
  shiftRound16^[8] ((crc ^^^ ((b % 256) <<< 8)) % 65536)

/-- Modelled from the spec: CRC-16/CCITT-XMODEM — polynomial 0x1021, initial
value 0x0000, no input/output reflection, no final XOR, 16-bit state. -/
def crc16xmodem (data : List Nat) : Nat :=
  data.foldl crc16xmodemUpdate 0

/-! Frame parser: `parse_galaxy_buds_head_tracking_data`, lines 127-171. -/

/-- Little-endian 16-bit value of two bytes (struct.unpack with format <H). -/
def le16 (lo hi : Nat) : Nat := lo + 256 * hi

/-- Little-endian 32-bit word of four bytes.  This bit pattern is the
IEEE-754 binary32 value that struct.unpack with format <f decodes; the
decoding is a fixed bijection between 4-byte strings and binary32 values,
so quaternion components are modelled by these words. -/
def le32 (b0 b1 b2 b3 : Nat) : Nat :=
  b0 + 256 * b1 + 65536 * b2 + 16777216 * b3

/-- A decoded head-tracking sample: the quaternion built by
`pq.Quaternion(w=w, x=x, y=y, z=z)` on line 169, each component given by
the bit pattern of the binary32 float decoded from the wire. -/
structure WireQuat where
  w : Nat
  x : Nat
  y : Nat
  z : Nat
deriving DecidableEq

/-- Python slice `d[a:b]` on a byte string (total, never raises). -/
def slice (d : List Nat) (a b : Nat) : List Nat := (d.drop a).take (b - a)

/-- Model of the struct unpack with format string <H: succeeds exactly on a 2-byte input, yielding
the little-endian 16-bit value; any other length is a `struct.error`. -/
def unpackH (s : List Nat) : Option Nat :=
  if s.length = 2 then some (le16 (s.getD 0 0) (s.getD 1 0)) else none

/-- Model of the struct unpack with format string <ffff: succeeds exactly on a 16-byte input,
yielding the bit patterns of four little-endian binary32 floats. -/
def unpack4f (s : List Nat) : Option (Nat × Nat × Nat × Nat) :=
  if s.length = 16 then
    some (le32 (s.getD 0 0) (s.getD 1 0) (s.getD 2 0) (s.getD 3 0),
          le32 (s.getD 4 0) (s.getD 5 0) (s.getD 6 0) (s.getD 7 0),
          le32 (s.getD 8 0) (s.getD 9 0) (s.getD 10 0) (s.getD 11 0),
          le32 (s.getD 12 0) (s.getD 13 0) (s.getD 14 0) (s.getD 15 0))
  else none

/-- Body of the try block of the parser (lines 151-171): payload length,
sub-message id, quaternion floats, CRC check.  Every `struct.error` or
`IndexError` raised here is caught by line 170 and becomes `None`. -/
def parseTry (d : List Nat) : Option WireQuat :=
  match unpackH (slice d 2 4) with
  | none => none
  | some payloadLength =>
    if payloadLength ≠ 17 then none
    else
      match d[4]? with
      | none => none
      | some subMsgId =>
        if subMsgId ≠ 0xA8 then none
        else
          match unpack4f (slice d 5 21) with
          | none => none
          | some (qx, qy, qz, qw) =>
            match unpackH (slice d 21 23) with
            | none => none
            | some receivedCrc =>
              if receivedCrc ≠ crc16 (slice d 0 21) then none
              else some ⟨qw, qx, qy, qz⟩

/-- Model of `parse_galaxy_buds_head_tracking_data` with its exception behaviour made
explicit: `Except.error` marks an exception that would escape the function,
`.ok none` an explicit `return None`.  The length, preamble and message-id
tests (lines 139-149) run outside the `try`, so out-of-range indexing there
would escape; everything from line 151 on runs inside the
`try`/`except (struct.error, IndexError)` and yields `None` on failure. -/
def parseE (d : List Nat) : Except String (Option WireQuat) :=
  if d.length ≠ 23 then .ok none
  else
    match d[0]? with
    | none => .error "IndexError"
    | some b0 =>
      if b0 ≠ 0xFE then .ok none
      else
        match d[1]? with
        | none => .error "IndexError"
        | some b1 =>
          if b1 ≠ 0x27 then .ok none
          else .ok (parseTry d)

/-- The parser as its callers observe it: quaternion or `None`.  Collapsing
the `Except` layer is justified by `parse_total` below (no input makes an
exception escape). -/
def parse_galaxy_buds_head_tracking_data (d : List Nat) : Option WireQuat :=
  match parseE d with
  | .ok o => o
  | .error _ => none

/-- The first 21 bytes of a well-formed test frame: marker, message id,
payload length 17, sub-message id, quaternion (0, 0, 0, 1) as binary32
little-endian words. -/
def testFramePrefix : List Nat :=
  [0xFE, 0x27, 0x11, 0x00, 0xA8,
   0, 0, 0, 0, 0, 0, 0, 0, 0, 0, 0, 0, 0, 0, 128, 63]

/-- A complete well-formed 23-byte frame: prefix plus its little-endian
CRC-16. -/
def testFrame : List Nat :=
  testFramePrefix ++ [crc16 testFramePrefix % 256, crc16 testFramePrefix / 256]

/-! Receive-buffer frame extraction: the inner loop of
`galaxy_buds_head_tracking_thread`, lines 195-220. -/

/-- Model of the marker search of line 196: index of the first 0xFE byte,
or `none` when absent (Python returns -1). -/
def findFE : List Nat → Option Nat
  | [] => none
  | b :: rest => if b = 0xFE then some 0 else (findFE rest).map (· + 1)

/-- The `while len(recv_buffer) >= 23` loop (lines 195-220): resynchronise
on the marker — discarding the whole buffer when it is absent (lines
197-199) and the prefix before it otherwise (lines 201-206) — then take one
23-byte window, parse it, record any decoded quaternion, and delete the 23
bytes unconditionally (line 220).  Returns the decoded samples in
production order together with the buffer contents left when the loop
exits. -/
def processBuffer (buf : List Nat) : List WireQuat × List Nat :=
  if h : 23 ≤ buf.length then
    match findFE buf with
    | none => ([], [])
    | some i =>
      if h2 : (buf.drop i).length < 23 then ([], buf.drop i)
      else
        let res := processBuffer ((buf.drop i).drop 23)
        ((parse_galaxy_buds_head_tracking_data ((buf.drop i).take 23)).elim
          res.1 (fun q => q :: res.1), res.2)
  else ([], buf)
termination_by buf.length
decreasing_by
  simp only [List.length_drop]
  omega

/-! Orientation channel: `queue.Queue(maxsize=10)` (line 37), producer
lines 210-218, consumer lines 259-263.  The queue is modelled as the list
of pending values, oldest first. -/

/-- The queue bound `maxsize=10` (line 37). -/
def queueCapacity : Nat := 10

/-- Producer push (lines 212-216): `put_nowait` when the queue is not full,
otherwise `get_nowait()` (evicting the oldest pending value) followed by
`put_nowait`.  Total — the producer never blocks. -/
def pushLatest {α : Type} (q : List α) (v : α) : List α :=
  if q.length < queueCapacity then q ++ [v] else q.drop 1 ++ [v]

/-- Consumer drain (lines 259-263): `get_nowait()` in a loop until
`queue.Empty`, keeping the last value obtained; when nothing is pending the
current orientation is kept.  Total — the consumer never blocks. -/
def drainLatest {α : Type} : List α → α → α
  | [], current => current
  | v :: rest, _ => drainLatest rest v

/-! Stop flag: `stop_event = threading.Event()` (line 41). -/

/-- Every operation the program performs on `stop_event`: `set()` on lines
223, 229, 245, 357, 379 and 392, and pure observations (`is_set` polling on
lines 190, 352 and 373, and the bounded waits).  `clear()` never occurs in
the source. -/
inductive StopOp where
  | btErrorSet
  | loopErrorSet
  | threadExitSet
  | startupTimeoutSet
  | shutdownSet
  | keyboardInterruptSet
  | pollIsSet
deriving DecidableEq

/-- Effect of one operation on the flag: every `set()` site drives it to
`true`; observation leaves it unchanged. -/
def applyStopOp (s : Bool) : StopOp → Bool
  | .btErrorSet => true
  | .loopErrorSet => true
  | .threadExitSet => true
  | .startupTimeoutSet => true
  | .shutdownSet => true
  | .keyboardInterruptSet => true
  | .pollIsSet => s

/-! Render engine: `audio_callback`, lines 250-310.  Samples and quaternion
components are real numbers; the trigonometric pipeline uses `Complex.arg`
as the exact arctan2. -/

noncomputable section

/-- A NumPy sample array as handled by the callback: one-dimensional
(mono) or two-dimensional with a declared column count. -/
inductive Arr where
  | mono (xs : List ℝ)
  | multi (ncols : Nat) (rows : List (List ℝ))

/-- Frame count of an array (the Python len or shape[0]). -/
def Arr.numFrames : Arr → Nat
  | .mono xs => xs.length
  | .multi _ rows => rows.length

/-- Zero-padding along the frame axis (lines 267-268:
`np.pad(chunk, ((0, frames - len(chunk)), (0, 0)))` for 2-d input,
`np.pad(chunk, (0, frames - len(chunk)))` for 1-d input). -/
def Arr.padTo (frames : Nat) : Arr → Arr
  | .mono xs => .mono (xs ++ List.replicate (frames - xs.length) 0)
  | .multi c rows => .multi c (rows ++ List.replicate (frames - rows.length) (List.replicate c 0))

/-- A well-formed NumPy array: in 2-d form every row has the declared
column count. -/
def Arr.WF : Arr → Prop
  | .mono _ => True
  | .multi c rows => ∀ r ∈ rows, r.length = c

/-- Control flow that leaves the callback: the deliberate
`raise sd.CallbackStop` of line 271, or an uncaught Python exception. -/
inductive CbErr where
  | callbackStop
  | pyExn
deriving DecidableEq

/-- Lines 265-271: read up to `frames` frames, zero-pad a short chunk, and
test for the end of the stream.  The test `len(chunk) == 0` runs after
`chunk` has been rebound to the padded array, exactly as in the source. -/
def readPad (frames : Nat) (chunk : Arr) : Except CbErr Arr :=
  if chunk.numFrames < frames then
    if (chunk.padTo frames).numFrames = 0 then .error .callbackStop
    else .ok (chunk.padTo frames)
  else .ok chunk

/-- Mono downmix (lines 273-276): row-wise arithmetic mean for 2-d input,
identity for 1-d input. -/
def Arr.downmix : Arr → List ℝ
  | .mono xs => xs
  | .multi _ rows => rows.map (fun r => r.sum / r.length)

/-- A head-orientation quaternion (w, x, y, z), as held in
`current_head_orientation`. -/
structure Quat where
  w : ℝ
  x : ℝ
  y : ℝ
  z : ℝ

/-- Squared norm of a quaternion. -/
def Quat.normSq (q : Quat) : ℝ := q.w ^ 2 + q.x ^ 2 + q.y ^ 2 + q.z ^ 2

/-- Quaternion conjugate. -/
def Quat.conjugate (q : Quat) : Quat := ⟨q.w, -q.x, -q.y, -q.z⟩

/-- Hamilton product. -/
def Quat.mul (a b : Quat) : Quat :=
  ⟨a.w * b.w - a.x * b.x - a.y * b.y - a.z * b.z,
   a.w * b.x + a.x * b.w + a.y * b.z - a.z * b.y,
   a.w * b.y - a.x * b.z + a.y * b.w + a.z * b.x,
   a.w * b.z + a.x * b.y - a.y * b.x + a.z * b.w⟩

/-- Model of the pyquaternion inverse property (used on line 280): conjugate divided
by the squared norm when it is positive; a zero quaternion raises
`ZeroDivisionError`. -/
def Quat.inverseE (q : Quat) : Except Unit Quat :=
  if 0 < q.normSq then
    .ok ⟨q.w / q.normSq, -q.x / q.normSq, -q.y / q.normSq, -q.z / q.normSq⟩
  else .error ()

/-- A three-component world vector. -/
structure Vec3 where
  x : ℝ
  y : ℝ
  z : ℝ

/-- Model of the pyquaternion rotate method (line 281): normalise the quaternion
and conjugate the pure quaternion (0, v) by it; for a nonzero quaternion
this equals `q (0, v) q* / normSq q`, which avoids the square root. -/
def Quat.rotate (q : Quat) (v : Vec3) : Vec3 :=
  let r := (q.mul ⟨0, v.x, v.y, v.z⟩).mul q.conjugate
  ⟨r.x / q.normSq, r.y / q.normSq, r.z / q.normSq⟩

/-- Exact arctan2 of y and x: the argument of the complex number x + y·i, valued
in (-π, π]. -/
def atan2 (y x : ℝ) : ℝ := Complex.arg (Complex.mk x y)

/-- Radian-to-degree conversion (np.degrees). -/
def degOfRad (r : ℝ) : ℝ := r * 180 / Real.pi

/-- The azimuth wrap of lines 290-293. -/
def wrapAz (a : ℝ) : ℝ :=
  if 180 < a then a - 360 else if a < -180 then a + 360 else a

/-- Azimuth of the rotated source vector in degrees (lines 283-284 and
290-293). -/
def azimuthDeg (v : Vec3) : ℝ := wrapAz (degOfRad (atan2 v.y v.x))

/-- Elevation of the rotated source vector in degrees (lines 286-288), with
the 1e-6 guard on the horizontal distance. -/
def elevationDeg (v : Vec3) : ℝ :=
  degOfRad (atan2 v.z
    (if 1 / 1000000 < Real.sqrt (v.x ^ 2 + v.y ^ 2) then Real.sqrt (v.x ^ 2 + v.y ^ 2)
     else 1 / 1000000))

/-- Inputs of the callback for one invocation: the chunk `audio_file.read`
returned, the head orientation after draining the queue, and the
spatialiser collaborator
(`hrtf.interpolate(azimuth, elevation).apply(mono, samplerate)`), which may
raise. -/
structure RenderEnv where
  chunk : Arr
  headQ : Quat
  spat : ℝ → ℝ → List ℝ → Except Unit Arr

/-- Lines 299-300: a 1-d spatialiser result is duplicated into two channels
by `np.stack((s, s), axis=1)`. -/
def dupIfMono : Arr → Arr
  | .mono xs => .multi 2 (xs.map (fun s => [s, s]))
  | a => a

/-- Lines 302-305: zero-pad or truncate the frame axis to exactly `frames`
rows. -/
def fixLen (frames : Nat) : Arr → Arr
  | .multi c rows =>
      .multi c (if rows.length < frames
        then rows ++ List.replicate (frames - rows.length) (List.replicate c 0)
        else rows.take frames)
  | .mono xs => .mono xs

/-- Line 307, `outdata[:] = spatialized_audio` with `outdata` of shape
(frames, channels): the assignment succeeds when the array has `frames`
rows and a matching column count, or a single broadcastable column;
otherwise NumPy raises a ValueError, caught by the handler of line 308. -/
def writeOut (frames channels : Nat) : Arr → Except Unit (List (List ℝ))
  | .multi c rows =>
      if rows.length = frames then
        if c = channels then .ok rows
        else if c = 1 then .ok (rows.map (fun r => List.replicate channels (r.headD 0)))
        else .error ()
      else .error ()
  | .mono _ => .error ()

/-- An all-zero block, as produced by line 310. -/
def silence (frames channels : Nat) : List (List ℝ) :=
  List.replicate frames (List.replicate channels 0)

/-- The spatialisation `try` block, lines 295-307. -/
def renderTry (frames channels : Nat) (env : RenderEnv) (az el : ℝ)
    (monoChunk : List ℝ) : Except Unit (List (List ℝ)) :=
  match env.spat az el monoChunk with
  | .error e => .error e
  | .ok s => writeOut frames channels (fixLen frames (dupIfMono s))

/-- Model of `audio_callback` (lines 250-310) for one invocation, with the queue
drain factored into `env.headQ`.  The `Except` layer records control flow
that leaves the callback; the `try`/`except` of lines 295-310 replaces a
failed spatialisation by silence, while the read/pad logic (lines 265-271)
and the quaternion inversion (line 280) run outside it. -/
def audio_callback (frames channels : Nat) (env : RenderEnv) :
    Except CbErr (List (List ℝ)) :=
  match readPad frames env.chunk with
  | .error e => .error e
  | .ok chunk =>
    match env.headQ.inverseE with
    | .error _ => .error .pyExn
    | .ok invQ =>
      match renderTry frames channels env (azimuthDeg (invQ.rotate ⟨1, 0, 0⟩))
          (elevationDeg (invQ.rotate ⟨1, 0, 0⟩)) chunk.downmix with
      | .ok out => .ok out
      | .error _ => .ok (silence frames channels)

/-- The concrete render environment exhibiting an uncaught failure: a
1-frame mono chunk and a zero head quaternion, whose inversion on line 280
raises `ZeroDivisionError` outside the `try` of lines 295-310. -/
def zeroQuatEnv : RenderEnv := ⟨Arr.mono [0], ⟨0, 0, 0, 0⟩, fun _ _ _ => .error ()⟩

/-- A render environment whose head quaternion is the identity and whose
spatialiser always fails. -/
def idQuatFailEnv : RenderEnv := ⟨Arr.mono [0], ⟨1, 0, 0, 0⟩, fun _ _ _ => .error ()⟩

/-- A render environment with a 3-frame mono chunk, identity head
quaternion, and a spatialiser that returns a 1-frame mono result. -/
def monoSpatEnv : RenderEnv :=
  ⟨Arr.mono [1, 1, 1], ⟨1, 0, 0, 0⟩, fun _ _ _ => .ok (Arr.mono [1])⟩

end

/-! Proofs of the claimed properties. -/

lemma and_mask_eq_mod (a : Nat) : a &&& 0xFFFF = a % 65536 := by
  apply Nat.eq_of_testBit_eq
  intro i
  have h1 : (0xFFFF : Nat) = 2 ^ 16 - 1 := by norm_num
  have h2 : (65536 : Nat) = 2 ^ 16 := by norm_num
  rw [Nat.testBit_and, h1, Nat.testBit_two_pow_sub_one, h2, Nat.testBit_mod_two_pow]
  cases a.testBit i <;> by_cases h : i < 16 <;> simp [h]

lemma xor_mod_two_pow (a b k : Nat) : (a ^^^ b) % 2 ^ k = a % 2 ^ k ^^^ b % 2 ^ k := by
  apply Nat.eq_of_testBit_eq
  intro i
  rw [Nat.testBit_mod_two_pow, Nat.testBit_xor, Nat.testBit_xor,
    Nat.testBit_mod_two_pow, Nat.testBit_mod_two_pow]
  cases a.testBit i <;> cases b.testBit i <;> by_cases h : i < k <;> simp [h]

lemma and_bit15_mod (a : Nat) : a % 65536 &&& 0x8000 = a &&& 0x8000 := by
  have h1 : (0x8000 : Nat) = 2 ^ 15 := by norm_num
  have h2 : (65536 : Nat) = 2 ^ 16 := by norm_num
  rw [h1, Nat.and_two_pow, Nat.and_two_pow]
  have : (a % 65536).testBit 15 = a.testBit 15 := by
    rw [h2, Nat.testBit_mod_two_pow]
    simp
  rw [this]

lemma shiftLeft_one_mod (a : Nat) : ((a % 65536) <<< 1) % 65536 = (a <<< 1) % 65536 := by
  rw [Nat.shiftLeft_eq, Nat.shiftLeft_eq]
  conv_rhs => rw [Nat.mul_mod]

lemma shiftRound_mod (a : Nat) : shiftRound a % 65536 = shiftRound16 (a % 65536) := by
  unfold shiftRound shiftRound16
  rw [and_bit15_mod]
  by_cases h : a &&& 0x8000 ≠ 0
  · have M : (65536 : Nat) = 2 ^ 16 := by norm_num
    simp only [if_pos h]
    rw [M, xor_mod_two_pow, xor_mod_two_pow, ← M, shiftLeft_one_mod]
  · simp only [if_neg h]
    rw [shiftLeft_one_mod]

lemma shiftRound_iterate_mod (n : Nat) :
    ∀ a : Nat, shiftRound^[n] a % 65536 = shiftRound16^[n] (a % 65536) := by
  induction n with
  | zero => intro a; simp
  | succ k ih =>
    intro a
    rw [Function.iterate_succ_apply, Function.iterate_succ_apply, ih, shiftRound_mod]

lemma crc16update_mod (c b : Nat) :
    crc16update c b % 65536 = crc16xmodemUpdate (c % 65536) b := by
  unfold crc16update crc16xmodemUpdate
  rw [shiftRound_iterate_mod]
  congr 1
  have M : (65536 : Nat) = 2 ^ 16 := by norm_num
  have hb : (b <<< 8) % 65536 = (b % 256) <<< 8 := by
    rw [Nat.shiftLeft_eq, Nat.shiftLeft_eq]
    have h256 : (65536 : Nat) = 256 * 2 ^ 8 := by norm_num
    rw [h256, Nat.mul_mod_mul_right]
  have hsmall : ((b % 256) <<< 8) % 65536 = (b % 256) <<< 8 := by
    apply Nat.mod_eq_of_lt
    rw [Nat.shiftLeft_eq]
    have h1 : b % 256 < 256 := Nat.mod_lt _ (by norm_num)
    have h2 : (2 : Nat) ^ 8 = 256 := by norm_num
    nlinarith
  rw [M, xor_mod_two_pow, ← M, hb]
  conv_rhs => rw [M, xor_mod_two_pow, ← M, Nat.mod_mod_of_dvd c dvd_rfl, hsmall]

lemma crc16_fold_mod (data : List Nat) :
    ∀ c : Nat, data.foldl crc16update c % 65536 = data.foldl crc16xmodemUpdate (c % 65536) := by
  induction data with
  | nil => intro c; simp
  | cons b rest ih =>
    intro c
    simp only [List.foldl_cons]
    rw [ih, crc16update_mod]

lemma crc16_eq_crc16xmodem (data : List Nat) : crc16 data = crc16xmodem data := by
  unfold crc16 crc16xmodem
  rw [and_mask_eq_mod, crc16_fold_mod]

lemma crc16_lt (data : List Nat) : crc16 data < 65536 := by
  unfold crc16
  rw [and_mask_eq_mod]
  exact Nat.mod_lt _ (by norm_num)

/-- C5: the checksum function computes the CRC-16/CCITT-XMODEM value
(polynomial 0x1021, initial value 0x0000, no reflection, no final XOR,
16-bit state), is deterministic, its result always fits in 16 bits, and it
matches the standard XMODEM check value 0x31C3 on the bytes of
"123456789". -/
theorem crc16_is_xmodem :
    (∀ data : List Nat, crc16 data = crc16xmodem data) ∧
    (∀ data : List Nat, crc16 data < 65536) ∧
    (∀ d d' : List Nat, d = d' → crc16 d = crc16 d') ∧
    crc16 [0x31, 0x32, 0x33, 0x34, 0x35, 0x36, 0x37, 0x38, 0x39] = 0x31C3 :=
  ⟨crc16_eq_crc16xmodem, crc16_lt, fun _ _ h => h ▸ rfl,
   by set_option maxRecDepth 20000 in decide⟩

/-- C5 witness: the CRC facts instantiated on the concrete byte list
`[0xFE, 0x27]`. -/
theorem crc16_is_xmodem_witness :
    crc16 [0xFE, 0x27] = crc16 [0xFE, 0x27] ∧
    crc16 [0xFE, 0x27] < 65536 ∧
    crc16 [0xFE, 0x27] = crc16xmodem [0xFE, 0x27] :=
  ⟨crc16_is_xmodem.2.2.1 [0xFE, 0x27] [0xFE, 0x27] rfl,
   crc16_is_xmodem.2.1 [0xFE, 0x27],
   crc16_is_xmodem.1 [0xFE, 0x27]⟩

lemma getD_drop (d : List Nat) (a i : Nat) :
    (d.drop a).getD i 0 = d.getD (a + i) 0 := by
  rw [List.getD_eq_getElem?_getD, List.getD_eq_getElem?_getD, List.getElem?_drop]

lemma exists_list23 (d : List Nat) (h : d.length = 23) :
    ∃ b0 b1 b2 b3 b4 b5 b6 b7 b8 b9 b10 b11 b12 b13 b14 b15 b16 b17 b18 b19 b20 b21 b22,
      d = [b0, b1, b2, b3, b4, b5, b6, b7, b8, b9, b10, b11,
           b12, b13, b14, b15, b16, b17, b18, b19, b20, b21, b22] := by
  obtain ⟨b0, d, rfl⟩ := List.exists_of_length_succ d (show d.length = 22 + 1 by omega)
  rw [List.length_cons] at h
  obtain ⟨b1, d, rfl⟩ := List.exists_of_length_succ d (show d.length = 21 + 1 by omega)
  rw [List.length_cons] at h
  obtain ⟨b2, d, rfl⟩ := List.exists_of_length_succ d (show d.length = 20 + 1 by omega)
  rw [List.length_cons] at h
  obtain ⟨b3, d, rfl⟩ := List.exists_of_length_succ d (show d.length = 19 + 1 by omega)
  rw [List.length_cons] at h
  obtain ⟨b4, d, rfl⟩ := List.exists_of_length_succ d (show d.length = 18 + 1 by omega)
  rw [List.length_cons] at h
  obtain ⟨b5, d, rfl⟩ := List.exists_of_length_succ d (show d.length = 17 + 1 by omega)
  rw [List.length_cons] at h
  obtain ⟨b6, d, rfl⟩ := List.exists_of_length_succ d (show d.length = 16 + 1 by omega)
  rw [List.length_cons] at h
  obtain ⟨b7, d, rfl⟩ := List.exists_of_length_succ d (show d.length = 15 + 1 by omega)
  rw [List.length_cons] at h
  obtain ⟨b8, d, rfl⟩ := List.exists_of_length_succ d (show d.length = 14 + 1 by omega)
  rw [List.length_cons] at h
  obtain ⟨b9, d, rfl⟩ := List.exists_of_length_succ d (show d.length = 13 + 1 by omega)
  rw [List.length_cons] at h
  obtain ⟨b10, d, rfl⟩ := List.exists_of_length_succ d (show d.length = 12 + 1 by omega)
  rw [List.length_cons] at h
  obtain ⟨b11, d, rfl⟩ := List.exists_of_length_succ d (show d.length = 11 + 1 by omega)
  rw [List.length_cons] at h
  obtain ⟨b12, d, rfl⟩ := List.exists_of_length_succ d (show d.length = 10 + 1 by omega)
  rw [List.length_cons] at h
  obtain ⟨b13, d, rfl⟩ := List.exists_of_length_succ d (show d.length = 9 + 1 by omega)
  rw [List.length_cons] at h
  obtain ⟨b14, d, rfl⟩ := List.exists_of_length_succ d (show d.length = 8 + 1 by omega)
  rw [List.length_cons] at h
  obtain ⟨b15, d, rfl⟩ := List.exists_of_length_succ d (show d.length = 7 + 1 by omega)
  rw [List.length_cons] at h
  obtain ⟨b16, d, rfl⟩ := List.exists_of_length_succ d (show d.length = 6 + 1 by omega)
  rw [List.length_cons] at h
  obtain ⟨b17, d, rfl⟩ := List.exists_of_length_succ d (show d.length = 5 + 1 by omega)
  rw [List.length_cons] at h
  obtain ⟨b18, d, rfl⟩ := List.exists_of_length_succ d (show d.length = 4 + 1 by omega)
  rw [List.length_cons] at h
  obtain ⟨b19, d, rfl⟩ := List.exists_of_length_succ d (show d.length = 3 + 1 by omega)
  rw [List.length_cons] at h
  obtain ⟨b20, d, rfl⟩ := List.exists_of_length_succ d (show d.length = 2 + 1 by omega)
  rw [List.length_cons] at h
  obtain ⟨b21, d, rfl⟩ := List.exists_of_length_succ d (show d.length = 1 + 1 by omega)
  rw [List.length_cons] at h
  obtain ⟨b22, d, rfl⟩ := List.exists_of_length_succ d (show d.length = 0 + 1 by omega)
  rw [List.length_cons] at h
  have hnil : d = [] := List.length_eq_zero.mp (by omega)
  subst hnil
  exact ⟨b0, b1, b2, b3, b4, b5, b6, b7, b8, b9, b10, b11,
         b12, b13, b14, b15, b16, b17, b18, b19, b20, b21, b22, rfl⟩

lemma parse_iff (d : List Nat) (q : WireQuat) (hlen : d.length = 23) :
    parse_galaxy_buds_head_tracking_data d = some q ↔
      (d.getD 0 0 = 0xFE ∧ d.getD 1 0 = 0x27 ∧
       le16 (d.getD 2 0) (d.getD 3 0) = 17 ∧ d.getD 4 0 = 0xA8 ∧
       le16 (d.getD 21 0) (d.getD 22 0) = crc16 (d.take 21) ∧
       q = ⟨le32 (d.getD 17 0) (d.getD 18 0) (d.getD 19 0) (d.getD 20 0),
            le32 (d.getD 5 0) (d.getD 6 0) (d.getD 7 0) (d.getD 8 0),
            le32 (d.getD 9 0) (d.getD 10 0) (d.getD 11 0) (d.getD 12 0),
            le32 (d.getD 13 0) (d.getD 14 0) (d.getD 15 0) (d.getD 16 0)⟩) := by
  obtain ⟨b0, b1, b2, b3, b4, b5, b6, b7, b8, b9, b10, b11,
          b12, b13, b14, b15, b16, b17, b18, b19, b20, b21, b22, rfl⟩ :=
    exists_list23 d hlen
  by_cases c0 : b0 = 0xFE <;> by_cases c1 : b1 = 0x27 <;>
    by_cases c2 : le16 b2 b3 = 17 <;> by_cases c4 : b4 = 0xA8 <;>
    by_cases c5 : le16 b21 b22 =
      crc16 [b0, b1, b2, b3, b4, b5, b6, b7, b8, b9, b10, b11,
             b12, b13, b14, b15, b16, b17, b18, b19, b20] <;>
    simp [parse_galaxy_buds_head_tracking_data, parseE, parseTry, slice, unpackH, unpack4f,
      c0, c1, c2, c4, c5, eq_comm]

lemma parseE_ne_error (d : List Nat) (e : String) : parseE d ≠ .error e := by
  by_cases hl : d.length = 23
  · obtain ⟨b0, b1, b2, b3, b4, b5, b6, b7, b8, b9, b10, b11,
            b12, b13, b14, b15, b16, b17, b18, b19, b20, b21, b22, rfl⟩ :=
      exists_list23 d hl
    by_cases c0 : b0 = 0xFE <;> by_cases c1 : b1 = 0x27 <;>
      simp [parseE, c0, c1]
  · simp [parseE, hl]

/-- C4: for every 23-byte frame the parser produces a sample iff byte 0 is
0xFE, byte 1 is 0x27, the little-endian 16-bit field at bytes 2-3 is 17,
byte 4 is 0xA8, and the little-endian 16-bit CRC at bytes 21-22 equals the
CRC-16 of bytes 0..20; on success the quaternion components (w, x, y, z)
are exactly the four little-endian binary32 words decoded from bytes 5..20
in order x, y, z, w, with no renormalisation; any validation failure
yields no sample. -/
theorem parser_characterisation (d : List Nat) (q : WireQuat) (hlen : d.length = 23) :
    parse_galaxy_buds_head_tracking_data d = some q ↔
      (d.getD 0 0 = 0xFE ∧ d.getD 1 0 = 0x27 ∧
       le16 (d.getD 2 0) (d.getD 3 0) = 17 ∧ d.getD 4 0 = 0xA8 ∧
       le16 (d.getD 21 0) (d.getD 22 0) = crc16 (d.take 21) ∧
       q = ⟨le32 (d.getD 17 0) (d.getD 18 0) (d.getD 19 0) (d.getD 20 0),
            le32 (d.getD 5 0) (d.getD 6 0) (d.getD 7 0) (d.getD 8 0),
            le32 (d.getD 9 0) (d.getD 10 0) (d.getD 11 0) (d.getD 12 0),
            le32 (d.getD 13 0) (d.getD 14 0) (d.getD 15 0) (d.getD 16 0)⟩) :=
  parse_iff d q hlen

/-- C4 witness: the characterisation applied to the concrete well-formed
frame `testFrame`, whose encoded quaternion is (w, x, y, z) =
(1.0f bit pattern, 0, 0, 0). -/
theorem parser_characterisation_witness :
    parse_galaxy_buds_head_tracking_data testFrame = some ⟨1065353216, 0, 0, 0⟩ :=
  (parser_characterisation testFrame ⟨1065353216, 0, 0, 0⟩
      (by set_option maxRecDepth 20000 in decide)).mpr
    (by set_option maxRecDepth 20000 in decide)

/-- C10: the parser is total at its public interface: for every byte
sequence no exception escapes (the `Except` layer is always `.ok`), and
any input whose length is not 23 yields `None` immediately. -/
theorem parser_total (d : List Nat) :
    parseE d = .ok (parse_galaxy_buds_head_tracking_data d) ∧
    (d.length ≠ 23 → parse_galaxy_buds_head_tracking_data d = none) := by
  constructor
  · cases hE : parseE d with
    | ok o => unfold parse_galaxy_buds_head_tracking_data; rw [hE]
    | error e => exact absurd hE (parseE_ne_error d e)
  · intro hl
    unfold parse_galaxy_buds_head_tracking_data parseE
    rw [if_pos hl]

/-- C10 witness: totality instantiated on the 2-byte input `[0, 1]`. -/
theorem parser_total_witness :
    parseE [0, 1] = .ok (parse_galaxy_buds_head_tracking_data [0, 1]) ∧
    parse_galaxy_buds_head_tracking_data [0, 1] = none :=
  ⟨(parser_total [0, 1]).1, (parser_total [0, 1]).2 (by decide)⟩

lemma findFE_eq_none (buf : List Nat) (h : ∀ b ∈ buf, b ≠ 0xFE) : findFE buf = none := by
  induction buf with
  | nil => rfl
  | cons a l ih =>
    unfold findFE
    rw [if_neg (h a (List.mem_cons_self a l)),
      ih (fun b hb => h b (List.mem_cons_of_mem a hb))]
    rfl

lemma findFE_cons_marker (buf : List Nat) (h : buf.getD 0 0 = 0xFE) (hne : buf ≠ []) :
    findFE buf = some 0 := by
  cases buf with
  | nil => exact absurd rfl hne
  | cons a l =>
    have ha : a = 0xFE := h
    unfold findFE
    rw [if_pos ha]

lemma findFE_append_garbage (g f : List Nat) (hg : ∀ b ∈ g, b ≠ 0xFE)
    (hf : f.getD 0 0 = 0xFE) (hne : f ≠ []) :
    findFE (g ++ f) = some g.length := by
  induction g with
  | nil => simpa using findFE_cons_marker f hf hne
  | cons a l ih =>
    rw [List.cons_append]
    unfold findFE
    rw [if_neg (hg a (List.mem_cons_self a l)),
      ih (fun b hb => hg b (List.mem_cons_of_mem a hb))]
    simp

lemma findFE_spec (buf : List Nat) (i : Nat) (h : findFE buf = some i) :
    i < buf.length ∧ buf.getD i 0 = 0xFE := by
  induction buf generalizing i with
  | nil => cases h
  | cons a l ih =>
    unfold findFE at h
    by_cases ha : a = 0xFE
    · rw [if_pos ha] at h
      cases h
      exact ⟨by simp, ha⟩
    · rw [if_neg ha] at h
      cases hfl : findFE l with
      | none => rw [hfl] at h; cases h
      | some j =>
        rw [hfl] at h
        simp only [Option.map_some', Option.some.injEq] at h
        obtain ⟨hj1, hj2⟩ := ih j hfl
        subst h
        constructor
        · simp only [List.length_cons]
          omega
        · simpa [List.getD_cons_succ] using hj2

lemma processBuffer_nil : processBuffer ([] : List Nat) = ([], []) := by
  unfold processBuffer
  simp

lemma processBuffer_no_marker (buf : List Nat) (h : 23 ≤ buf.length)
    (hg : ∀ b ∈ buf, b ≠ 0xFE) : processBuffer buf = ([], []) := by
  unfold processBuffer
  rw [dif_pos h, findFE_eq_none buf hg]

lemma processBuffer_consume (buf : List Nat) (h : 23 ≤ buf.length)
    (hb : buf.getD 0 0 = 0xFE) :
    processBuffer buf =
      ((parse_galaxy_buds_head_tracking_data (buf.take 23)).elim
        (processBuffer (buf.drop 23)).1 (fun q => q :: (processBuffer (buf.drop 23)).1),
       (processBuffer (buf.drop 23)).2) := by
  have hne : buf ≠ [] := by
    intro hh
    rw [hh] at h
    simp at h
  have hf : findFE buf = some 0 := findFE_cons_marker buf hb hne
  conv_lhs => rw [processBuffer]
  simp only [dif_pos h, hf, List.drop_zero]
  rw [dif_neg (by omega)]

lemma processBuffer_skip (buf : List Nat) (i : Nat) (h : 23 ≤ buf.length)
    (hf : findFE buf = some i) : processBuffer buf = processBuffer (buf.drop i) := by
  obtain ⟨hi, hb⟩ := findFE_spec buf i hf
  have hb0 : (buf.drop i).getD 0 0 = 0xFE := by
    rw [getD_drop]
    simpa using hb
  by_cases h2 : (buf.drop i).length < 23
  · conv_lhs => rw [processBuffer]
    simp only [dif_pos h, hf, dif_pos h2]
    conv_rhs => rw [processBuffer]
    rw [dif_neg (by omega)]
  · conv_lhs => rw [processBuffer]
    simp only [dif_pos h, hf, dif_neg h2]
    rw [processBuffer_consume (buf.drop i) (by omega) hb0]

lemma processBuffer_resync (g f : List Nat) (q : WireQuat)
    (hg : ∀ b ∈ g, b ≠ 0xFE) (hf23 : f.length = 23)
    (hq : parse_galaxy_buds_head_tracking_data f = some q) :
    processBuffer (g ++ f) = ([q], []) := by
  have hb0 : f.getD 0 0 = 0xFE := ((parse_iff f q hf23).mp hq).1
  have hne : f ≠ [] := by
    intro hh
    rw [hh] at hf23
    simp at hf23
  have hlen : (g ++ f).length = g.length + 23 := by simp [hf23]
  have hfind : findFE (g ++ f) = some g.length := findFE_append_garbage g f hg hb0 hne
  rw [processBuffer_skip _ _ (by omega) hfind, List.drop_left,
    processBuffer_consume f (by omega) hb0]
  have ht : f.take 23 = f := by
    conv_lhs => rw [← hf23]
    exact List.take_length f
  have hd : f.drop 23 = [] := by
    conv_lhs => rw [← hf23]
    exact List.drop_length f
  rw [ht, hd, hq, processBuffer_nil]
  rfl

/-- C6: buffer management of the decoder loop: with at least 23 bytes
buffered, (1) a buffer containing no 0xFE byte is discarded whole; (2) when
0xFE first occurs at offset `i`, the bytes before it are discarded; (3)
with the marker at offset 0, exactly 23 bytes are taken and consumed
unconditionally, parsed or not; and (4) garbage containing no 0xFE followed
by one valid frame yields exactly that one decoded sample with every byte
consumed. -/
theorem decoder_buffer_management :
    (∀ buf : List Nat, 23 ≤ buf.length → (∀ b ∈ buf, b ≠ 0xFE) →
        processBuffer buf = ([], [])) ∧
    (∀ (buf : List Nat) (i : Nat), 23 ≤ buf.length → findFE buf = some i →
        processBuffer buf = processBuffer (buf.drop i)) ∧
    (∀ buf : List Nat, 23 ≤ buf.length → buf.getD 0 0 = 0xFE →
        processBuffer buf =
          ((parse_galaxy_buds_head_tracking_data (buf.take 23)).elim
            (processBuffer (buf.drop 23)).1 (fun q => q :: (processBuffer (buf.drop 23)).1),
           (processBuffer (buf.drop 23)).2)) ∧
    (∀ (g f : List Nat) (q : WireQuat), (∀ b ∈ g, b ≠ 0xFE) → f.length = 23 →
        parse_galaxy_buds_head_tracking_data f = some q →
        processBuffer (g ++ f) = ([q], [])) :=
  ⟨processBuffer_no_marker, processBuffer_skip, processBuffer_consume, processBuffer_resync⟩

/-- C6 witness: 22 garbage (0x00) bytes followed by the concrete valid
frame `testFrame` yield exactly one decoded sample and an empty buffer. -/
theorem decoder_buffer_management_witness :
    processBuffer (List.replicate 22 0 ++ testFrame) = ([⟨1065353216, 0, 0, 0⟩], []) :=
  decoder_buffer_management.2.2.2 (List.replicate 22 0) testFrame ⟨1065353216, 0, 0, 0⟩
    (by decide) (by set_option maxRecDepth 20000 in decide)
    (by set_option maxRecDepth 20000 in decide)

/-- C7: the orientation channel is latest-wins: a push onto a full queue
evicts one stale value and installs the new one without blocking; five
pushes with no intervening drain leave the consumer observing the fifth
value; and draining an empty queue leaves the previous orientation
unchanged. -/
theorem orientation_channel_latest_wins :
    (∀ (α : Type) (q : List α) (v : α), q.length = queueCapacity →
        pushLatest q v = q.drop 1 ++ [v] ∧ (pushLatest q v).length = queueCapacity) ∧
    (∀ (α : Type) (v1 v2 v3 v4 v5 : α) (c : α),
        drainLatest
          (pushLatest (pushLatest (pushLatest (pushLatest (pushLatest [] v1) v2) v3) v4) v5)
          c = v5) ∧
    (∀ (α : Type) (c : α), drainLatest ([] : List α) c = c) := by
  refine ⟨?_, ?_, ?_⟩
  · intro α q v hq
    constructor
    · unfold pushLatest
      rw [if_neg (by omega)]
    · unfold pushLatest
      rw [if_neg (by omega)]
      simp [hq, queueCapacity]
  · intro α v1 v2 v3 v4 v5 c
    simp [pushLatest, drainLatest, queueCapacity]
  · intro α c
    rfl

/-- C7 witness: the full-queue eviction applied to a concrete queue of ten
pending values, and the latest-wins drain on concrete values. -/
theorem orientation_channel_latest_wins_witness :
    pushLatest [0, 1, 2, 3, 4, 5, 6, 7, 8, 9] 42 =
      ([0, 1, 2, 3, 4, 5, 6, 7, 8, 9] : List Nat).drop 1 ++ [42] ∧
    (pushLatest [0, 1, 2, 3, 4, 5, 6, 7, 8, 9] (42 : Nat)).length = queueCapacity ∧
    drainLatest
      (pushLatest (pushLatest (pushLatest (pushLatest (pushLatest [] 11) 12) 13) 14)
        (15 : Nat)) 0 = 15 :=
  ⟨(orientation_channel_latest_wins.1 Nat [0, 1, 2, 3, 4, 5, 6, 7, 8, 9] 42 (by decide)).1,
   (orientation_channel_latest_wins.1 Nat [0, 1, 2, 3, 4, 5, 6, 7, 8, 9] 42 (by decide)).2,
   orientation_channel_latest_wins.2.1 Nat 11 12 13 14 15 0⟩

/-- C9: the stop flag is terminal: no operation of the program resets a set
flag, so after any sequence of further operations by any component the flag
remains set. -/
theorem stop_flag_terminal :
    (∀ op : StopOp, applyStopOp true op = true) ∧
    (∀ ops : List StopOp, ops.foldl applyStopOp true = true) := by
  constructor
  · intro op
    cases op <;> rfl
  · intro ops
    induction ops with
    | nil => rfl
    | cons op rest ih =>
      rw [List.foldl_cons]
      have h : applyStopOp true op = true := by cases op <;> rfl
      rw [h]
      exact ih

lemma padTo_numFrames (frames : Nat) (chunk : Arr) (h : chunk.numFrames ≤ frames) :
    (chunk.padTo frames).numFrames = frames := by
  cases chunk with
  | mono xs =>
    simp only [Arr.padTo, Arr.numFrames, List.length_append, List.length_replicate]
    simp only [Arr.numFrames] at h
    omega
  | multi c rows =>
    simp only [Arr.padTo, Arr.numFrames, List.length_append, List.length_replicate]
    simp only [Arr.numFrames] at h
    omega

lemma readPad_ok (frames : Nat) (chunk : Arr) : ∃ c, readPad frames chunk = .ok c := by
  unfold readPad
  by_cases h : chunk.numFrames < frames
  · rw [if_pos h, if_neg]
    · exact ⟨_, rfl⟩
    · rw [padTo_numFrames frames chunk h.le]
      omega
  · rw [if_neg h]
    exact ⟨_, rfl⟩

/-- C1: the spec says a zero-frame read raises the stream-stop signal, but
the code tests `len(chunk) == 0` only after rebinding `chunk` to the
zero-padded array (lines 267-271), so the test never fires: the callback
never raises `CallbackStop`, and a zero-frame read at the configured block
size 1024 produces a full silent chunk instead of stopping the stream. -/
theorem end_of_stream_never_stops :
    (∀ (frames channels : Nat) (env : RenderEnv),
        audio_callback frames channels env ≠ .error CbErr.callbackStop) ∧
    readPad 1024 (Arr.mono []) = .ok (Arr.mono (List.replicate 1024 0)) := by
  constructor
  · intro frames channels env
    obtain ⟨c, hc⟩ := readPad_ok frames env.chunk
    unfold audio_callback
    simp only [hc]
    cases hinv : env.headQ.inverseE with
    | error e => simp [hinv]
    | ok invQ =>
      simp only [hinv]
      cases hrt : renderTry frames channels env (azimuthDeg (invQ.rotate ⟨1, 0, 0⟩))
          (elevationDeg (invQ.rotate ⟨1, 0, 0⟩)) c.downmix with
      | ok w => simp [hrt]
      | error e => simp [hrt]
  · norm_num [readPad, Arr.numFrames, Arr.padTo]

/-- C2 counterexample: a failure in step 4 (inverting the zero-norm head
quaternion, line 280) escapes the callback as an exception instead of
being replaced by silence — the `try` block only starts at line 295. -/
theorem render_failure_escapes :
    audio_callback 1 2 zeroQuatEnv = .error CbErr.pyExn ∧
    audio_callback 1 2 zeroQuatEnv ≠ .ok (silence 1 2) := by
  have h : audio_callback 1 2 zeroQuatEnv = .error CbErr.pyExn := by
    norm_num [audio_callback, zeroQuatEnv, readPad, Arr.numFrames, Quat.inverseE, Quat.normSq]
  refine ⟨h, ?_⟩
  rw [h]
  simp

/-- C2 (amended): failures raised inside the spatialisation `try` (steps
6-7: impulse-response lookup, application, reshaping and the output write)
are caught and replaced by an all-zero block, and no exception escapes
whenever the quaternion inversion succeeds; but a failure in the inversion
itself (step 4) escapes the callback. -/
theorem render_failure_policy :
    (∀ (frames channels : Nat) (env : RenderEnv),
        env.headQ.inverseE = .error () →
        audio_callback frames channels env = .error CbErr.pyExn) ∧
    (∀ (frames channels : Nat) (env : RenderEnv),
        env.headQ.inverseE ≠ .error () →
        ∃ out, audio_callback frames channels env = .ok out) ∧
    (∀ (frames channels : Nat) (env : RenderEnv),
        env.headQ.inverseE ≠ .error () →
        (∀ az el m, env.spat az el m = .error ()) →
        audio_callback frames channels env = .ok (silence frames channels)) := by
  refine ⟨?_, ?_, ?_⟩
  · intro frames channels env herr
    obtain ⟨c, hc⟩ := readPad_ok frames env.chunk
    unfold audio_callback
    simp only [hc, herr]
  · intro frames channels env hne
    obtain ⟨c, hc⟩ := readPad_ok frames env.chunk
    unfold audio_callback
    simp only [hc]
    cases hinv : env.headQ.inverseE with
    | error e => exact absurd (by rw [hinv]) hne
    | ok invQ =>
      simp only [hinv]
      cases hrt : renderTry frames channels env (azimuthDeg (invQ.rotate ⟨1, 0, 0⟩))
          (elevationDeg (invQ.rotate ⟨1, 0, 0⟩)) c.downmix with
      | ok w => exact ⟨w, by simp [hrt]⟩
      | error e => exact ⟨silence frames channels, by simp [hrt]⟩
  · intro frames channels env hne hfail
    obtain ⟨c, hc⟩ := readPad_ok frames env.chunk
    unfold audio_callback
    simp only [hc]
    cases hinv : env.headQ.inverseE with
    | error e => exact absurd (by rw [hinv]) hne
    | ok invQ =>
      simp only [hinv]
      have hrt : renderTry frames channels env (azimuthDeg (invQ.rotate ⟨1, 0, 0⟩))
          (elevationDeg (invQ.rotate ⟨1, 0, 0⟩)) c.downmix = .error () := by
        unfold renderTry
        simp only [hfail]
      simp [hrt]

/-- C2 witness: the silence substitution applied to a concrete environment
whose head quaternion is the identity and whose spatialiser always
fails. -/
theorem render_failure_policy_witness :
    audio_callback 4 2 idQuatFailEnv = .ok (silence 4 2) :=
  render_failure_policy.2.2 4 2 idQuatFailEnv
    (by
      norm_num [idQuatFailEnv, Quat.inverseE, Quat.normSq]
      exact fun hco => Except.noConfusion hco)
    (fun _ _ _ => rfl)

lemma writeOut_shape (frames channels : Nat) (a : Arr) (out : List (List ℝ))
    (hWF : a.WF) (hok : writeOut frames channels a = .ok out) :
    out.length = frames ∧ ∀ r ∈ out, r.length = channels := by
  cases a with
  | mono xs => exact absurd hok (by simp [writeOut])
  | multi c rows =>
    simp only [writeOut] at hok
    simp only [Arr.WF] at hWF
    by_cases h1 : rows.length = frames
    · rw [if_pos h1] at hok
      by_cases h2 : c = channels
      · rw [if_pos h2] at hok
        simp only [Except.ok.injEq] at hok
        subst hok
        exact ⟨h1, fun r hr => (hWF r hr).trans h2⟩
      · rw [if_neg h2] at hok
        by_cases h3 : c = 1
        · rw [if_pos h3] at hok
          simp only [Except.ok.injEq] at hok
          subst hok
          constructor
          · simp [h1]
          · intro r hr
            simp only [List.mem_map] at hr
            obtain ⟨r0, _, rfl⟩ := hr
            simp
        · rw [if_neg h3] at hok
          cases hok
    · rw [if_neg h1] at hok
      cases hok

lemma dupIfMono_WF (a : Arr) (h : a.WF) : (dupIfMono a).WF := by
  cases a with
  | mono xs =>
    simp only [dupIfMono, Arr.WF]
    intro r hr
    simp only [List.mem_map] at hr
    obtain ⟨s, _, rfl⟩ := hr
    rfl
  | multi c rows => exact h

lemma fixLen_WF (frames : Nat) (a : Arr) (h : a.WF) : (fixLen frames a).WF := by
  cases a with
  | mono xs => exact h
  | multi c rows =>
    simp only [fixLen, Arr.WF] at h ⊢
    intro r hr
    by_cases hc : rows.length < frames
    · rw [if_pos hc] at hr
      rcases List.mem_append.mp hr with h1 | h2
      · exact h r h1
      · rw [List.eq_of_mem_replicate h2]
        simp
    · rw [if_neg hc] at hr
      exact h r (List.mem_of_mem_take hr)

lemma renderTry_shape (frames channels : Nat) (env : RenderEnv) (az el : ℝ)
    (m : List ℝ) (w : List (List ℝ))
    (hWFspat : ∀ a, env.spat az el m = .ok a → a.WF)
    (hok : renderTry frames channels env az el m = .ok w) :
    w.length = frames ∧ ∀ r ∈ w, r.length = channels := by
  unfold renderTry at hok
  cases hs : env.spat az el m with
  | error e =>
    simp only [hs] at hok
    exact Except.noConfusion hok
  | ok s =>
    simp only [hs] at hok
    exact writeOut_shape _ _ _ _ (fixLen_WF _ _ (dupIfMono_WF s (hWFspat s hs))) hok

lemma writeOut_two (frames : Nat) (rows : List (List ℝ)) :
    writeOut frames 2 (Arr.multi 2 rows) =
      if rows.length = frames then .ok rows else .error () := by
  simp only [writeOut, if_true]

lemma renderTry_dup (frames : Nat) (env : RenderEnv) (az el : ℝ) (m : List ℝ)
    (w : List (List ℝ))
    (hmono : ∀ a, env.spat az el m = .ok a → ∃ xs, a = .mono xs)
    (hok : renderTry frames 2 env az el m = .ok w) :
    ∀ r ∈ w, ∃ s, r = [s, s] := by
  unfold renderTry at hok
  cases hs : env.spat az el m with
  | error e =>
    simp only [hs] at hok
    exact Except.noConfusion hok
  | ok s =>
    simp only [hs] at hok
    obtain ⟨xs, rfl⟩ := hmono s hs
    have hdup : dupIfMono (.mono xs) = .multi 2 (xs.map (fun s => [s, s])) := rfl
    rw [hdup] at hok
    by_cases h1 : (xs.map (fun s => [s, s])).length < frames
    · have hfix : fixLen frames (Arr.multi 2 (xs.map (fun s => [s, s]))) =
          .multi 2 ((xs.map (fun s => [s, s])) ++
            List.replicate (frames - (xs.map (fun s => [s, s])).length)
              (List.replicate 2 0)) := by
        simp only [fixLen]
        rw [if_pos h1]
      rw [hfix, writeOut_two] at hok
      by_cases hl : ((xs.map (fun s => [s, s])) ++
          List.replicate (frames - (xs.map (fun s => [s, s])).length)
            (List.replicate 2 0)).length = frames
      · rw [if_pos hl] at hok
        simp only [Except.ok.injEq] at hok
        subst hok
        intro r hr
        rcases List.mem_append.mp hr with hA | hB
        · obtain ⟨s, _, rfl⟩ := List.mem_map.mp hA
          exact ⟨s, rfl⟩
        · rw [List.eq_of_mem_replicate hB]
          exact ⟨0, rfl⟩
      · rw [if_neg hl] at hok
        exact Except.noConfusion hok
    · have hfix : fixLen frames (Arr.multi 2 (xs.map (fun s => [s, s]))) =
          .multi 2 ((xs.map (fun s => [s, s])).take frames) := by
        simp only [fixLen]
        rw [if_neg h1]
      rw [hfix, writeOut_two] at hok
      by_cases hl : ((xs.map (fun s => [s, s])).take frames).length = frames
      · rw [if_pos hl] at hok
        simp only [Except.ok.injEq] at hok
        subst hok
        intro r hr
        obtain ⟨s, _, rfl⟩ := List.mem_map.mp (List.mem_of_mem_take hr)
        exact ⟨s, rfl⟩
      · rw [if_neg hl] at hok
        exact Except.noConfusion hok

/-- C3: whenever the callback hands a block to the device, the block has
exactly `frames` rows of `channels` samples — short source chunks and
over- or under-length spatialiser results notwithstanding — and with the
stereo device contract a single-channel spatialiser result is duplicated
into two equal output channels. -/
theorem rendered_block_shape :
    (∀ (frames channels : Nat) (env : RenderEnv) (out : List (List ℝ)),
        (∀ az el m a, env.spat az el m = .ok a → a.WF) →
        audio_callback frames channels env = .ok out →
        out.length = frames ∧ ∀ r ∈ out, r.length = channels) ∧
    (∀ (frames : Nat) (env : RenderEnv) (out : List (List ℝ)),
        (∀ az el m a, env.spat az el m = .ok a → ∃ xs, a = .mono xs) →
        audio_callback frames 2 env = .ok out →
        ∀ r ∈ out, ∃ s, r = [s, s]) := by
  constructor
  · intro frames channels env out hWFspat hok
    obtain ⟨c, hc⟩ := readPad_ok frames env.chunk
    unfold audio_callback at hok
    simp only [hc] at hok
    cases hinv : env.headQ.inverseE with
    | error e => simp [hinv] at hok
    | ok invQ =>
      simp only [hinv] at hok
      cases hrt : renderTry frames channels env (azimuthDeg (invQ.rotate ⟨1, 0, 0⟩))
          (elevationDeg (invQ.rotate ⟨1, 0, 0⟩)) c.downmix with
      | ok w =>
        simp only [hrt, Except.ok.injEq] at hok
        subst hok
        exact renderTry_shape _ _ _ _ _ _ _ (fun a ha => hWFspat _ _ _ a ha) hrt
      | error e =>
        simp only [hrt, Except.ok.injEq] at hok
        subst hok
        refine ⟨by simp [silence], ?_⟩
        intro r hr
        rw [List.eq_of_mem_replicate hr]
        simp
  · intro frames env out hmono hok
    obtain ⟨c, hc⟩ := readPad_ok frames env.chunk
    unfold audio_callback at hok
    simp only [hc] at hok
    cases hinv : env.headQ.inverseE with
    | error e => simp [hinv] at hok
    | ok invQ =>
      simp only [hinv] at hok
      cases hrt : renderTry frames 2 env (azimuthDeg (invQ.rotate ⟨1, 0, 0⟩))
          (elevationDeg (invQ.rotate ⟨1, 0, 0⟩)) c.downmix with
      | ok w =>
        simp only [hrt, Except.ok.injEq] at hok
        subst hok
        exact renderTry_dup _ _ _ _ _ _ (fun a ha => hmono _ _ _ a ha) hrt
      | error e =>
        simp only [hrt, Except.ok.injEq] at hok
        subst hok
        intro r hr
        rw [List.eq_of_mem_replicate hr]
        exact ⟨0, rfl⟩

/-- C3 witness: the shape facts instantiated on a concrete run: a 3-frame
mono chunk, identity orientation and a 1-frame mono spatialiser result
yield the 3-by-2 block [[1,1],[0,0],[0,0]]. -/
theorem rendered_block_shape_witness :
    ([[(1 : ℝ), 1], [0, 0], [0, 0]] : List (List ℝ)).length = 3 ∧
    (∀ r ∈ ([[(1 : ℝ), 1], [0, 0], [0, 0]] : List (List ℝ)), r.length = 2) ∧
    (∀ r ∈ ([[(1 : ℝ), 1], [0, 0], [0, 0]] : List (List ℝ)), ∃ s, r = [s, s]) := by
  have h : audio_callback 3 2 monoSpatEnv = .ok [[(1 : ℝ), 1], [0, 0], [0, 0]] := by
    norm_num [audio_callback, monoSpatEnv, readPad, Arr.numFrames, Quat.inverseE,
      Quat.normSq, renderTry, dupIfMono, fixLen, writeOut, Arr.downmix, silence,
      List.replicate]
  have hWF : ∀ az el m a, monoSpatEnv.spat az el m = .ok a → a.WF := by
    intro az el m a ha
    simp only [monoSpatEnv] at ha
    injection ha with ha
    subst ha
    trivial
  have hmono : ∀ az el m a, monoSpatEnv.spat az el m = .ok a → ∃ xs, a = .mono xs := by
    intro az el m a ha
    simp only [monoSpatEnv] at ha
    injection ha with ha
    subst ha
    exact ⟨[1], rfl⟩
  obtain ⟨h1, h2⟩ := rendered_block_shape.1 3 2 monoSpatEnv _ hWF h
  exact ⟨h1, h2, rendered_block_shape.2 3 monoSpatEnv _ hmono h⟩

lemma azimuth_mem (v : Vec3) : azimuthDeg v ∈ Set.Ioc (-180 : ℝ) 180 := by
  have hpi := Real.pi_pos
  obtain ⟨h1, h2⟩ := Complex.arg_mem_Ioc (Complex.mk v.x v.y)
  unfold azimuthDeg wrapAz degOfRad atan2
  have hub : Complex.arg (Complex.mk v.x v.y) * 180 / Real.pi ≤ 180 := by
    rw [div_le_iff₀ hpi]
    nlinarith
  have hlb : (-180 : ℝ) < Complex.arg (Complex.mk v.x v.y) * 180 / Real.pi := by
    rw [lt_div_iff₀ hpi]
    nlinarith
  rw [if_neg (by linarith), if_neg (by linarith)]
  exact ⟨hlb, hub⟩

lemma elevation_max_form (v : Vec3) :
    elevationDeg v =
      degOfRad (atan2 v.z (max (Real.sqrt (v.x ^ 2 + v.y ^ 2)) (1 / 1000000))) := by
  unfold elevationDeg
  by_cases h : (1 : ℝ) / 1000000 < Real.sqrt (v.x ^ 2 + v.y ^ 2)
  · rw [if_pos h, max_eq_left h.le]
  · rw [if_neg h, max_eq_right (le_of_not_lt h)]

lemma azimuth_wrap_example :
    azimuthDeg ⟨Real.cos (190 * Real.pi / 180), Real.sin (190 * Real.pi / 180), 0⟩ = -170 := by
  have hpi := Real.pi_pos
  have hpne := Real.pi_ne_zero
  have h190 : (190 : ℝ) * Real.pi / 180 = -170 * Real.pi / 180 + 2 * Real.pi := by ring
  have hmem : (-170 : ℝ) * Real.pi / 180 ∈ Set.Ioc (-Real.pi) Real.pi := by
    constructor
    · nlinarith
    · nlinarith
  show wrapAz (degOfRad (atan2
    (Real.sin (190 * Real.pi / 180)) (Real.cos (190 * Real.pi / 180)))) = -170
  unfold atan2
  have harg : Complex.arg (Complex.mk (Real.cos (190 * Real.pi / 180))
      (Real.sin (190 * Real.pi / 180))) = -170 * Real.pi / 180 := by
    rw [h190, Real.cos_add_two_pi, Real.sin_add_two_pi, Complex.mk_eq_add_mul_I,
      Complex.ofReal_cos, Complex.ofReal_sin]
    exact Complex.arg_cos_add_sin_mul_I hmem
  rw [harg]
  have hdeg : degOfRad (-170 * Real.pi / 180) = -170 := by
    unfold degOfRad
    field_simp
    ring
  rw [hdeg]
  unfold wrapAz
  rw [if_neg (by norm_num), if_neg (by norm_num)]

/-- C8: the azimuth computed by the callback always lies in (-180, 180]
(the arctangent already lands there and the wrap of lines 290-293 leaves it
unchanged); the elevation equals atan2(z, max(sqrt(x² + y²), 1e-6)) in
degrees; and the rotated direction (cos 190°, sin 190°, 0) yields azimuth
-170, not 190. -/
theorem azimuth_elevation_spec :
    (∀ v : Vec3, azimuthDeg v ∈ Set.Ioc (-180 : ℝ) 180) ∧
    (∀ v : Vec3, elevationDeg v =
        degOfRad (atan2 v.z (max (Real.sqrt (v.x ^ 2 + v.y ^ 2)) (1 / 1000000)))) ∧
    azimuthDeg ⟨Real.cos (190 * Real.pi / 180), Real.sin (190 * Real.pi / 180), 0⟩ = -170 ∧
    (-170 : ℝ) ≠ 190 :=
  ⟨azimuth_mem, elevation_max_form, azimuth_wrap_example, by norm_num⟩

end SpatialAudioBuds
